import Mathlib

/-!
Verification of the Orchestra workflow engine
(`orchestra/backend/glue_runner.py`, class `OrchestraGlueRunner`).

The engine is shallow-embedded: Python JSON values become the inductive
type `J`; the engine's methods become Lean functions over `J`; the
runner's mutable attributes (`execution_memory`, `retry_attempts`) become
an explicit state record threaded through the functions; subprocess
execution (`execute_node`) is abstracted as an oracle supplying each
invocation's outcome; `random.choice` is abstracted as a consumed stream
of naturals (the chosen index is the next natural modulo the sequence
length).  Python exceptions become `Except.error` carrying the message.

Modelled fragment: JSON numbers are integers (the workflows and node
outputs exercised here use integers only); Python `TypeError`s arising
from ill-typed configuration values (for instance a non-integer `index`
in a `select_index` instruction) are modelled as `Except.error` where the
claims depend on them and noted in comments otherwise.
-/

namespace Orchestra

/-- Python/JSON value as produced by `json.loads`: `None`, `bool`, `int`,
`str`, `list`, `dict` (string keys, insertion ordered). -/
inductive J where
  | null
  | bool (b : Bool)
  | num (n : Int)
  | str (s : String)
  | arr (l : List J)
  | obj (o : List (String × J))

/-- Python mapping with string keys and `J` values (a parsed JSON object). -/
abbrev Obj := List (String × J)

mutual

/-- Boolean structural equality on `J` (Python `==` on parsed JSON values). -/
def jBEq : J → J → Bool
  | J.null, J.null => true
  | J.bool a, J.bool b => a == b
  | J.num a, J.num b => a == b
  | J.str a, J.str b => a == b
  | J.arr a, J.arr b => jBEqArr a b
  | J.obj a, J.obj b => jBEqObj a b
  | _, _ => false

/-- Elementwise `jBEq` on lists. -/
def jBEqArr : List J → List J → Bool
  | [], [] => true
  | a :: as, b :: bs => jBEq a b && jBEqArr as bs
  | _, _ => false

/-- Elementwise `jBEq` on key-value lists. -/
def jBEqObj : List (String × J) → List (String × J) → Bool
  | [], [] => true
  | (k, v) :: as, (k2, v2) :: bs => k == k2 && jBEq v v2 && jBEqObj as bs
  | _, _ => false

end

mutual

/-- Lemma: `jBEq` decides equality. -/
theorem jBEq_iff : ∀ a b : J, jBEq a b = true ↔ a = b
  | J.null, J.null => by simp [jBEq]
  | J.bool _, J.bool _ => by simp [jBEq]
  | J.num _, J.num _ => by simp [jBEq]
  | J.str _, J.str _ => by simp [jBEq]
  | J.arr a, J.arr b => by simp [jBEq, jBEqArr_iff a b]
  | J.obj a, J.obj b => by simp [jBEq, jBEqObj_iff a b]
  | J.null, J.bool _ => by simp [jBEq]
  | J.null, J.num _ => by simp [jBEq]
  | J.null, J.str _ => by simp [jBEq]
  | J.null, J.arr _ => by simp [jBEq]
  | J.null, J.obj _ => by simp [jBEq]
  | J.bool _, J.null => by simp [jBEq]
  | J.bool _, J.num _ => by simp [jBEq]
  | J.bool _, J.str _ => by simp [jBEq]
  | J.bool _, J.arr _ => by simp [jBEq]
  | J.bool _, J.obj _ => by simp [jBEq]
  | J.num _, J.null => by simp [jBEq]
  | J.num _, J.bool _ => by simp [jBEq]
  | J.num _, J.str _ => by simp [jBEq]
  | J.num _, J.arr _ => by simp [jBEq]
  | J.num _, J.obj _ => by simp [jBEq]
  | J.str _, J.null => by simp [jBEq]
  | J.str _, J.bool _ => by simp [jBEq]
  | J.str _, J.num _ => by simp [jBEq]
  | J.str _, J.arr _ => by simp [jBEq]
  | J.str _, J.obj _ => by simp [jBEq]
  | J.arr _, J.null => by simp [jBEq]
  | J.arr _, J.bool _ => by simp [jBEq]
  | J.arr _, J.num _ => by simp [jBEq]
  | J.arr _, J.str _ => by simp [jBEq]
  | J.arr _, J.obj _ => by simp [jBEq]
  | J.obj _, J.null => by simp [jBEq]
  | J.obj _, J.bool _ => by simp [jBEq]
  | J.obj _, J.num _ => by simp [jBEq]
  | J.obj _, J.str _ => by simp [jBEq]
  | J.obj _, J.arr _ => by simp [jBEq]

/-- Lemma: `jBEqArr` decides equality. -/
theorem jBEqArr_iff : ∀ a b : List J, jBEqArr a b = true ↔ a = b
  | [], [] => by simp [jBEqArr]
  | a :: as, b :: bs => by simp [jBEqArr, jBEq_iff a b, jBEqArr_iff as bs]
  | [], _ :: _ => by simp [jBEqArr]
  | _ :: _, [] => by simp [jBEqArr]

/-- Lemma: `jBEqObj` decides equality. -/
theorem jBEqObj_iff : ∀ a b : List (String × J), jBEqObj a b = true ↔ a = b
  | [], [] => by simp [jBEqObj]
  | (k, v) :: as, (k2, v2) :: bs => by
      simp [jBEqObj, jBEq_iff v v2, jBEqObj_iff as bs]
  | [], _ :: _ => by simp [jBEqObj]
  | _ :: _, [] => by simp [jBEqObj]

end

instance : DecidableEq J := fun a b => decidable_of_iff _ (jBEq_iff a b)

instance : BEq J := ⟨jBEq⟩

instance : LawfulBEq J where
  eq_of_beq h := (jBEq_iff _ _).mp h
  rfl := (jBEq_iff _ _).mpr rfl

instance {ε α : Type} [DecidableEq ε] [DecidableEq α] : DecidableEq (Except ε α) := fun a b =>
  match a, b with
  | Except.ok x, Except.ok y => decidable_of_iff (x = y) (by simp)
  | Except.error x, Except.error y => decidable_of_iff (x = y) (by simp)
  | Except.ok _, Except.error _ => isFalse (by simp)
  | Except.error _, Except.ok _ => isFalse (by simp)

/-- Python truthiness of a parsed JSON value (`bool(value)`). -/
def truthy : J → Bool
  | J.null => false
  | J.bool b => b
  | J.num n => n != 0
  | J.str s => s != ""
  | J.arr l => !l.isEmpty
  | J.obj o => !o.isEmpty

/-- Python `len` for sized parsed-JSON values; unsized values (where
Python would raise `TypeError`) are given length 0, outside the modelled
fragment. -/
def pyLen : J → Nat
  | J.str s => s.length
  | J.arr l => l.length
  | J.obj o => o.length
  | _ => 0

/-- First-match lookup in a key-value list (`d[k]` / `d.get(k)` on a
Python dict, whose keys are unique). -/
def lookupKey {α : Type} : List (String × α) → String → Option α
  | [], _ => none
  | (k, v) :: rest, key => if k == key then some v else lookupKey rest key

/-- Python `k in d` for a string-keyed dict. -/
def hasKey {α : Type} (o : List (String × α)) (k : String) : Bool :=
  (lookupKey o k).isSome

/-- Python dict assignment `d[k] = v`: overwrite in place if the key is
present (keeping its position), otherwise append. -/
def setKey {α : Type} : List (String × α) → String → α → List (String × α)
  | [], key, v => [(key, v)]
  | (k, w) :: rest, key, v =>
      if k == key then (k, v) :: rest else (k, w) :: setKey rest key v

mutual

/-- Python `repr` of a parsed JSON value (string escaping inside `repr`
of a `str` is not modelled; the strings exercised here need none). -/
def pyRepr : J → String
  | J.null => "None"
  | J.bool true => "True"
  | J.bool false => "False"
  | J.num n => toString n
  | J.str s => "\x27" ++ s ++ "\x27"
  | J.arr l => "[" ++ pyReprArr l ++ "]"
  | J.obj o => "\x7b" ++ pyReprObj o ++ "\x7d"

/-- Comma-separated `repr` of list elements. -/
def pyReprArr : List J → String
  | [] => ""
  | [x] => pyRepr x
  | x :: rest => pyRepr x ++ ", " ++ pyReprArr rest

/-- Comma-separated `repr` of dict items. -/
def pyReprObj : List (String × J) → String
  | [] => ""
  | [(k, v)] => "\x27" ++ k ++ "\x27: " ++ pyRepr v
  | (k, v) :: rest => "\x27" ++ k ++ "\x27: " ++ pyRepr v ++ ", " ++ pyReprObj rest

end

/-- Python `str(value)`: like `repr` except a top-level string is
rendered bare. -/
def pyStr : J → String
  | J.str s => s
  | v => pyRepr v

/-- Substring test: Python `needle in hay` on strings. -/
def strContains (hay needle : String) : Bool :=
  (List.range (hay.data.length + 1)).any fun i => needle.data.isPrefixOf (hay.data.drop i)

/-- Python `s.startswith(p)` for a single prefix. -/
def strStartsWith (s p : String) : Bool :=
  p.data.isPrefixOf s.data

/-- Python `s.endswith(p)`. -/
def strEndsWith (s p : String) : Bool :=
  p.data.isSuffixOf s.data

/-- Python `s.strip()`: remove leading and trailing whitespace. -/
def strTrim (s : String) : String :=
  ((s.data.dropWhile Char.isWhitespace).reverse.dropWhile Char.isWhitespace).reverse.asString

/-- Python `s.lower()` (ASCII case folding suffices here). -/
def strToLower (s : String) : String :=
  (s.data.map Char.toLower).asString

/-- Python `s.split('.')`: split on every dot, keeping empty pieces. -/
def splitDotAux : List Char → List Char → List String
  | [], acc => [acc.reverse.asString]
  | '.' :: rest, acc => acc.reverse.asString :: splitDotAux rest []
  | c :: rest, acc => splitDotAux rest (c :: acc)

/-- Python `s.split('.')` on a string. -/
def splitDot (s : String) : List String :=
  splitDotAux s.data []

/-- Replacement scan of Python `s.replace(pat, repl)` for a non-empty
pattern: left to right, non-overlapping.  The fuel is the remaining
character count; every step consumes at least one character. -/
def strReplaceAux (pat repl : List Char) : Nat → List Char → List Char
  | 0, l => l
  | _, [] => []
  | fuel + 1, c :: rest =>
      if !pat.isEmpty && pat.isPrefixOf (c :: rest) then
        repl ++ strReplaceAux pat repl fuel ((c :: rest).drop pat.length)
      else c :: strReplaceAux pat repl fuel rest

/-- Python `s.replace(pat, repl)` (the engine only ever replaces the
non-empty literal token `\x7b\x7b...\x7d\x7d`). -/
def strReplace (s pat repl : String) : String :=
  (strReplaceAux pat.data repl.data s.data.length s.data).asString

/-!
Variable Resolver: `OrchestraGlueRunner.substitute_variables`
(glue_runner.py lines 38-82).
-/

/-- Scanner for `re.findall(r'\«open»\«open»([^\x7d]+)\«close»\«close»', data)`
specialised to the pattern `\x7b\x7b([^\x7d]+)\x7d\x7d`: find every
non-overlapping match of two opening braces, one or more non-brace
characters (the captured group), and two closing braces; on a failed
match the scan restarts one character later, exactly as the regex engine
does.  The fuel argument is the remaining character count; it never runs
out before the scan finishes because every step consumes at least one
character. -/
def findVarsAux : Nat → List Char → List String
  | 0, _ => []
  | _, [] => []
  | fuel + 1, '{' :: '{' :: rest =>
      let inner := rest.takeWhile (· ≠ '}')
      match rest.dropWhile (· ≠ '}') with
      | '}' :: '}' :: rest2 =>
          if inner.isEmpty then findVarsAux fuel ('{' :: rest)
          else inner.asString :: findVarsAux fuel rest2
      | _ => findVarsAux fuel ('{' :: rest)
  | fuel + 1, _ :: rest => findVarsAux fuel rest

/-- All `\x7b\x7bvariable\x7d\x7d` capture groups found in a string, in
order (line 43: `re.findall(pattern, data)`). -/
def findVars (s : String) : List String :=
  findVarsAux s.data.length s.data

/-- Python `int(s)` for an optional sign followed by digits; other
strings (modulo surrounding whitespace and underscore separators, which
the engine never produces) raise `ValueError`, modelled as `none`. -/
def parseIntPy (s : String) : Option Int :=
  let core : List Char → Option Nat := fun ds =>
    if ds.isEmpty || !ds.all Char.isDigit then none
    else some (ds.foldl (fun acc c => acc * 10 + c.toNat - 48) 0)
  match s.data with
  | '-' :: ds => (core ds).map fun n => -(n : Int)
  | '+' :: ds => (core ds).map fun n => (n : Int)
  | ds => (core ds).map fun n => (n : Int)

/-- Python sequence indexing `l[n]` with negative-index support;
out-of-range (`IndexError`) yields `none`. -/
def pyIndex (l : List J) (n : Int) : Option J :=
  let m := if n < 0 then n + l.length else n
  if 0 ≤ m ∧ m < l.length then some (l.getD m.toNat J.null) else none

/-- One step of the field-path walk in `substitute_variables` (lines
56-69).  Python uses `None` both as parsed JSON `null` and as the
walk-failure sentinel, so `J.null` plays both roles here; once the value
is `J.null` every further step yields `J.null`, which matches the
`break` in the source. -/
def navStep (v : J) (f : String) : J :=
  match v with
  | J.obj o =>
      match lookupKey o f with
      | some w => w
      | none => J.null
  | J.arr l =>
      if strStartsWith f "[" && strEndsWith f "]" then
        match parseIntPy ((f.data.drop 1).dropLast.asString) with
        | some n => (pyIndex l n).getD J.null
        | none => J.null
      else J.null
  | _ => J.null

/-- String case of `substitute_variables` (lines 40-74): for each
matched reference with at least two dot-separated parts whose head names
a memory entry, walk the remaining parts; when the walk yields a
non-`None` value, replace every occurrence of the literal token with the
stringified value.  Unresolved references leave the token untouched. -/
def substituteString (s : String) (memory : List (String × Obj)) : String :=
  (findVars s).foldl
    (fun result m =>
      match splitDot m with
      | [] => result
      | node :: fieldPath =>
          if fieldPath.isEmpty then result
          else
            match lookupKey memory node with
            | none => result
            | some memv =>
                let value := fieldPath.foldl navStep (J.obj memv)
                if value == J.null then result
                else strReplace result ("\x7b\x7b" ++ m ++ "\x7d\x7d") (pyStr value))
    s

mutual

/-- Model of `OrchestraGlueRunner.substitute_variables` (lines 38-82): recursively
substitute `\x7b\x7bnode.field\x7d\x7d` references in strings, mappings
and sequences; other scalars pass through unchanged. -/
def substitute_variables (data : J) (memory : List (String × Obj)) : J :=
  match data with
  | J.str s => J.str (substituteString s memory)
  | J.obj o => J.obj (substituteObjFields o memory)
  | J.arr l => J.arr (substituteArrItems l memory)
  | other => other

/-- Elementwise substitution in a sequence. -/
def substituteArrItems : List J → List (String × Obj) → List J
  | [], _ => []
  | x :: xs, memory => substitute_variables x memory :: substituteArrItems xs memory

/-- Valuewise substitution in a mapping. -/
def substituteObjFields : List (String × J) → List (String × Obj) → List (String × J)
  | [], _ => []
  | (k, v) :: rest, memory => (k, substitute_variables v memory) :: substituteObjFields rest memory

end

/-!
Output Validator: `OrchestraGlueRunner._validate_node_output`
(glue_runner.py lines 134-173).
-/

/-- Result record of `_validate_node_output`. -/
structure NodeValidation where
  is_valid : Bool
  issues : List String
  retry_recommended : Bool
  alternative_strategy : Option String
deriving DecidableEq, Repr

/-- Model of `OrchestraGlueRunner._validate_node_output` (lines 134-173).
Generic rule: `output.get("success") is False or "error" in output` marks
the output invalid and retry-recommended.  Node-specific rules follow
the source; `len` of an untyped truthy non-sized value would raise in
Python and is outside the modelled fragment (the outputs exercised here
are well-typed). -/
def validate_node_output (node_name : String) (output : Obj) : NodeValidation :=
  let v0 : NodeValidation :=
    { is_valid := true, issues := [], retry_recommended := false, alternative_strategy := none }
  let v1 :=
    if lookupKey output "success" == some (J.bool false) || hasKey output "error" then
      { v0 with is_valid := false
                issues := v0.issues ++ ["Node " ++ node_name ++ " reported failure"]
                retry_recommended := true }
    else v0
  if node_name == "google-news-scraper" then
    let articles := (lookupKey output "articles").getD (J.arr [])
    if !truthy articles || pyLen articles == 0 then
      { v1 with is_valid := false
                issues := v1.issues ++ ["No articles found"]
                alternative_strategy := some "try_different_keywords_or_time_period" }
    else v1
  else if node_name == "article-page-scraper" then
    let article_text := (lookupKey output "article_text").getD (J.str "")
    let isShortStr := match article_text with
      | J.str s => decide ((strTrim s).length < 100)
      | _ => false
    if !truthy article_text || isShortStr then
      let article_length := if truthy article_text then pyLen article_text else 0
      { v1 with is_valid := false
                issues := v1.issues ++
                  ["Insufficient article content: " ++ toString article_length ++ " characters"]
                retry_recommended := true
                alternative_strategy := some "try_different_article_url" }
    else v1
  else if node_name == "article-processor" then
    let summary := (lookupKey output "summary").getD (J.str "")
    let isShortStr := match summary with
      | J.str s => decide ((strTrim s).length < 50)
      | _ => false
    if !truthy summary || isShortStr then
      { v1 with is_valid := false
                issues := v1.issues ++ ["Summary too short or missing"]
                retry_recommended := true }
    else v1
  else v1

/-!
Retry Controller input mutation: `OrchestraGlueRunner._create_retry_strategy`
(glue_runner.py lines 175-197).
-/

/-- Double a requested item count and cap it at 50
(`min(retry_inputs.get("max_news", 10) * 2, 50)`).  Python `bool`
participates as an `int`; other value types raise `TypeError` in Python
and are outside the modelled fragment (left unchanged here). -/
def doubleCapped (v : J) : J :=
  match v with
  | J.num n => J.num (min (n * 2) 50)
  | J.bool b => J.num (min ((if b then (1 : Int) else 0) * 2) 50)
  | other => other

/-- Model of `OrchestraGlueRunner._create_retry_strategy` (lines 175-197): build
the mutated inputs for the next attempt.  The Python source copies the
top-level inputs dict and assigns only top-level keys, so the original
inputs object is not affected; the returned value here is the copy.
Only a `google-news-scraper` validation with the
`try_different_keywords_or_time_period` hint mutates anything: the time
window is widened one step along Last 24 hours → Last week → Last month,
and `max_news` is doubled capped at 50.  Non-dict inputs have no
`.copy()` in Python (fragment note); they are returned unchanged. -/
def create_retry_strategy (node_name : String) (original_inputs : J)
    (v : NodeValidation) (_attempt : Nat) : J :=
  match original_inputs with
  | J.obj inputs =>
      if node_name == "google-news-scraper" then
        if v.alternative_strategy == some "try_different_keywords_or_time_period" then
          let current_period := (lookupKey inputs "time_period").getD (J.str "Last 24 hours")
          let inputs1 :=
            if current_period == J.str "Last 24 hours" then
              setKey inputs "time_period" (J.str "Last week")
            else if current_period == J.str "Last week" then
              setKey inputs "time_period" (J.str "Last month")
            else inputs
          let maxNews := (lookupKey inputs1 "max_news").getD (J.num 10)
          J.obj (setKey inputs1 "max_news" (doubleCapped maxNews))
        else J.obj inputs
      else J.obj inputs
  | other => other

/-!
Assembly Engine: `OrchestraGlueRunner.process_assembly_step`
(glue_runner.py lines 89-132).  `random.choice(items)` is modelled by
consuming the head `r` of a stream of naturals and picking
`items[r % len(items)]`; the stream is threaded through every function
that can reach a `random.choice` call.
-/

/-- Narrowing step shared by `select_random` and `select_index`
(lines 105-109 and 117-121): when the instruction carries a truthy
`extract` field and the selected item is a mapping, take
`selected_item.get(extract_field)` (which is `None` for a missing or
non-string key); otherwise keep the whole item. -/
def applyExtract (instruction : Obj) (selected_item : J) : J :=
  match lookupKey instruction "extract" with
  | some ef =>
      if truthy ef then
        match selected_item with
        | J.obj o =>
            match ef with
            | J.str f => (lookupKey o f).getD J.null
            | _ => J.null
        | _ => selected_item
      else selected_item
  | none => selected_item

/-- View of `instruction.get("index", 0)` as a Python `int`: a missing
`index` defaults to 0, a stored `int` is itself, a stored `bool`
participates as 0/1, and any other type has no `int` view (Python then
raises `TypeError` at the comparison `0 <= index < len(items)`). -/
def idxIntOf (io : Obj) : Option Int :=
  match (lookupKey io "index").getD (J.num 0) with
  | J.num n => some n
  | J.bool b => some (if b then 1 else 0)
  | _ => none

/-- Guard `source_field in source_data` of the assembly dispatch: the
instruction's `from` value must be a string naming a key of the source
data (a missing or non-string `from` never matches a string key). -/
def fromPresentB (io source_data : Obj) : Bool :=
  match lookupKey io "from" with
  | some (J.str s) => hasKey source_data s
  | _ => false

/-- Value `source_data[source_field]` selected by the instruction's
`from` field, when the guard can hold. -/
def fromValOf (io source_data : Obj) : Option J :=
  match lookupKey io "from" with
  | some (J.str s) => lookupKey source_data s
  | _ => none

/-- Evaluation of one assembly instruction (one iteration of the loop at
lines 95-130): `none` means the output field is omitted; `Except.error`
models the `TypeError` Python raises when a `select_index` instruction
whose source value is a list carries a non-integer `index` (reached at
the comparison `0 <= index < len(items)`); a Python `bool` index
participates as an `int`. -/
def evalInstruction (instruction : J) (source_data : Obj) (rand : List Nat) :
    Except String (Option J) × List Nat :=
  match instruction with
  | J.obj io =>
      let action := lookupKey io "action"
      let fromField := lookupKey io "from"
      let sourceVal : String → J := fun s => (lookupKey source_data s).getD J.null
      if action == some (J.str "select_random") && fromPresentB io source_data then
        match fromField with
        | some (J.str s) =>
            match sourceVal s with
            | J.arr items =>
                if items.isEmpty then (Except.ok none, rand)
                else
                  let r := rand.headD 0
                  let selected := items.getD (r % items.length) J.null
                  (Except.ok (some (applyExtract io selected)), rand.tail)
            | _ => (Except.ok none, rand)
        | _ => (Except.ok none, rand)
      else if action == some (J.str "select_index") && fromPresentB io source_data then
        match fromField with
        | some (J.str s) =>
            match sourceVal s with
            | J.arr items =>
                match idxIntOf io with
                | some n =>
                    if 0 ≤ n ∧ n < items.length then
                      (Except.ok (some (applyExtract io (items.getD n.toNat J.null))), rand)
                    else (Except.ok none, rand)
                | none =>
                    (Except.error "TypeError: \x27<=\x27 not supported between int and non-int index", rand)
            | _ => (Except.ok none, rand)
        | _ => (Except.ok none, rand)
      else if action == some (J.str "extract") && fromPresentB io source_data then
        match fromField with
        | some (J.str s) => (Except.ok (some (sourceVal s)), rand)
        | _ => (Except.ok none, rand)
      else (Except.ok none, rand)
  | J.str s =>
      if hasKey source_data s then (Except.ok (some ((lookupKey source_data s).getD J.null)), rand)
      else (Except.ok none, rand)
  | _ => (Except.ok none, rand)

/-- Loop of `process_assembly_step` over the instruction pairs,
accumulating the result mapping; an instruction that raises aborts the
loop and propagates the exception. -/
def processAssemblyGo (source_data : Obj) :
    List (String × J) → Obj → List Nat → Except String Obj × List Nat
  | [], acc, rand => (Except.ok acc, rand)
  | (output_key, instruction) :: rest, acc, rand =>
      match evalInstruction instruction source_data rand with
      | (Except.ok none, rand1) => processAssemblyGo source_data rest acc rand1
      | (Except.ok (some v), rand1) =>
          processAssemblyGo source_data rest (setKey acc output_key v) rand1
      | (Except.error e, rand1) => (Except.error e, rand1)

/-- Model of `OrchestraGlueRunner.process_assembly_step` (lines 89-132):
process all assembly instructions against the source step's output,
producing a (possibly partially populated) result mapping. -/
def process_assembly_step (assembly_config : Obj) (source_data : Obj) (rand : List Nat) :
    Except String Obj × List Nat :=
  processAssemblyGo source_data assembly_config [] rand

/-- Model of `OrchestraGlueRunner._validate_assembly_output`
(lines 428-440): every configured output key must be present and truthy
in the result, and any key whose lower-cased name contains "url" must
hold a string starting with an HTTP(S) scheme. -/
def validate_assembly_output (result : Obj) (assembly_config : Obj) : Bool :=
  assembly_config.all fun kv =>
    match lookupKey result kv.1 with
    | none => false
    | some v =>
        truthy v &&
        (if strContains (strToLower kv.1) "url" then
          match v with
          | J.str url => strStartsWith url "http://" || strStartsWith url "https://"
          | _ => false
        else true)

/-- Model of `OrchestraGlueRunner._create_intelligent_assembly_retry`
(lines 199-224): for every `select_index` instruction whose `from` field
names a list in the source data and whose advanced index
`index + attempt` is below the list length, set the instruction's
`index` to the advanced value; everything else is kept.  A non-integer
stored `index` would raise `TypeError` at `current_index + attempt` in
Python (outside the modelled fragment; such an index is treated as 0
here).  A Python `bool` index participates as an `int`. -/
def create_intelligent_assembly_retry (assembly_config : Obj) (source_data : Obj)
    (attempt : Nat) : Obj :=
  assembly_config.map fun kv =>
    match kv.2 with
    | J.obj io =>
        if lookupKey io "action" == some (J.str "select_index") then
          let current_index : Int :=
            match (lookupKey io "index").getD (J.num 0) with
            | J.num n => n
            | J.bool b => if b then 1 else 0
            | _ => 0
          let new_index := current_index + attempt
          match lookupKey io "from" with
          | some (J.str s) =>
              match lookupKey source_data s with
              | some (J.arr items) =>
                  if new_index < (items.length : Int) then
                    (kv.1, J.obj (setKey io "index" (J.num new_index)))
                  else kv
              | _ => kv
          | _ => kv
        else kv
    | _ => kv

/-- State of the `assembly_config` dict object that was passed into
`_create_intelligent_assembly_retry`, after the call returns.  The
Python source takes a shallow `assembly_config.copy()`, so the copy and
the original share the nested instruction dict objects, and the
`instruction["index"] = new_index` assignment at line 217 mutates those
shared objects in place; the top-level key set is never changed.  The
original object therefore ends in exactly the same state as the
returned copy. -/
def assembly_config_after_retry_call (assembly_config : Obj) (source_data : Obj)
    (attempt : Nat) : Obj :=
  create_intelligent_assembly_retry assembly_config source_data attempt

/-!
Node Executor: `OrchestraGlueRunner.execute_node`
(glue_runner.py lines 226-261).  The subprocess is abstracted as an
outcome (timeout, or completion with an exit status and the complete
standard-output and standard-error streams), and `json.loads` as a
parsing function; the engine never reads the result from anywhere but
the parsed standard output.
-/

/-- Outcome of the `subprocess.run` call: a `TimeoutExpired` after the
300-second budget, or completion with exit status and captured output
streams. -/
inductive ProcOutcome where
  | timeout
  | completed (returncode : Int) (stdout : String) (stderr : String)

/-- Model of `OrchestraGlueRunner.execute_node` (lines 226-261).  The
`run.py` existence check precedes the `try` block, so a missing script
raises `FileNotFoundError` unwrapped; a `TimeoutExpired` is re-raised as
a `RuntimeError` naming the node; the `RuntimeError`s raised inside the
`try` for a non-zero exit status or undecodable standard output are
caught by the trailing `except Exception` and re-wrapped with the
"Failed to execute node" prefix, again naming the node. -/
def execute_node (node_name : String) (script_exists : Bool)
    (parse : String → Option J) (proc : ProcOutcome) : Except String J :=
  if !script_exists then
    Except.error ("Node run script not found: " ++ node_name ++ "/run.py")
  else
    match proc with
    | ProcOutcome.timeout =>
        Except.error ("Node " ++ node_name ++ " timed out after 5 minutes")
    | ProcOutcome.completed returncode stdout stderr =>
        if returncode != 0 then
          Except.error ("Failed to execute node " ++ node_name ++ ": Node " ++ node_name ++
            " failed with error: " ++ stderr)
        else
          match parse stdout with
          | some output => Except.ok output
          | none =>
              Except.error ("Failed to execute node " ++ node_name ++ ": Node " ++ node_name ++
                " returned invalid JSON: " ++ stdout)

/-!
Retry Controller and Workflow Runner:
`OrchestraGlueRunner.execute_node_with_retry` (lines 263-305),
`OrchestraGlueRunner.process_assembly_step_with_retry` (lines 389-426)
and `OrchestraGlueRunner.run_workflow` (lines 307-387).

The runner instance's mutable attributes become the explicit state
`EngineSt`; node subprocess execution becomes the oracle in `EngineEnv`,
indexed by the running count of node executions performed so far (so
that an execution's outcome may differ between attempts), receiving the
node name and the resolved inputs, and returning either the parsed
output object or the raised exception's message.  Node outputs are
modelled as JSON objects (a node emitting a non-object JSON document
would make `_validate_node_output` raise an `AttributeError`, outside
the modelled fragment).
-/

/-- Mutable attributes of an `OrchestraGlueRunner` instance
(`__init__`, lines 24-26: `execution_memory = \x7b\x7d`,
`retry_attempts = \x7b\x7d`), plus the bookkeeping the shallow embedding
needs: the count of node executions performed so far (the oracle index)
and the stream of naturals backing `random.choice`. -/
structure EngineSt where
  memory : List (String × Obj)
  ra : List (String × Nat)
  execCount : Nat
  rand : List Nat
deriving DecidableEq

/-- Environment of a run: the abstracted node subprocess. -/
structure EngineEnv where
  oracle : Nat → String → J → Except String Obj

/-- Default `max_retries` (`__init__`, line 26). -/
def defaultMaxRetries : Nat := 3

/-- Stand-in for Python `hash` on strings: `hash` is deterministic
within one interpreter process and equal strings hash equal, which is
all the retry keys rely on; the string itself is the simplest such
stand-in. -/
def pyHashModel (s : String) : String := s

/-- Retry-attempt key of a node step
(line 265: `f"\x7bnode_name\x7d_\x7bhash(str(inputs))\x7d"`). -/
def nodeRetryKey (node_name : String) (inputs : J) : String :=
  node_name ++ "_" ++ pyHashModel (pyStr inputs)

/-- Retry-attempt key of an assembly step
(line 392: `f"\x7bassembly_name\x7d_\x7bhash(str(assembly_config))\x7d"`). -/
def asmRetryKey (assembly_name : String) (assembly_config : Obj) : String :=
  assembly_name ++ "_" ++ pyHashModel (pyStr (J.obj assembly_config))

/-- Stored attempt count for a key
(`self.retry_attempts.get(retry_key, 0)`). -/
def getAttempts (ra : List (String × Nat)) (key : String) : Nat :=
  (lookupKey ra key).getD 0

/-- Loop body of `execute_node_with_retry` (lines 268-305).  The fuel
argument bounds the remaining iterations; the function is entered with
fuel `max_retries - attempt`, and since every looping branch increases
`attempt` by exactly one under a guard keeping it below `max_retries`,
the fuel runs out exactly when the `while attempt < max_retries`
condition fails, in which case the `RuntimeError` at line 305 is
raised. -/
def execRetryGo (env : EngineEnv) (mr : Nat) (node_name key : String) :
    Nat → J → Nat → EngineSt → Except String Obj × EngineSt
  | 0, _, _, st =>
      (Except.error ("Node " ++ node_name ++ " failed after " ++ toString mr ++ " attempts"), st)
  | fuel + 1, inputs, attempt, st =>
      if attempt ≥ mr then
        (Except.error ("Node " ++ node_name ++ " failed after " ++ toString mr ++ " attempts"), st)
      else
        match env.oracle st.execCount node_name inputs with
        | Except.error e =>
            let st1 : EngineSt := { st with execCount := st.execCount + 1 }
            let attempt1 := attempt + 1
            let st2 : EngineSt := { st1 with ra := setKey st1.ra key attempt1 }
            if attempt1 ≥ mr then (Except.error e, st2)
            else execRetryGo env mr node_name key fuel inputs attempt1 st2
        | Except.ok output =>
            let st1 : EngineSt := { st with execCount := st.execCount + 1 }
            let v := validate_node_output node_name output
            if v.is_valid then (Except.ok output, st1)
            else if !v.retry_recommended || attempt ≥ mr - 1 then (Except.ok output, st1)
            else
              let attempt1 := attempt + 1
              let st2 : EngineSt := { st1 with ra := setKey st1.ra key attempt1 }
              let inputs1 := create_retry_strategy node_name inputs v attempt1
              execRetryGo env mr node_name key fuel inputs1 attempt1 st2

/-- Model of `OrchestraGlueRunner.execute_node_with_retry`
(lines 263-305): look up the stored attempt count for this
(node, inputs) configuration and run the retry loop. -/
def execute_node_with_retry (env : EngineEnv) (mr : Nat) (node_name : String)
    (inputs : J) (st : EngineSt) : Except String Obj × EngineSt :=
  let key := nodeRetryKey node_name inputs
  let attempt := getAttempts st.ra key
  execRetryGo env mr node_name key (mr - attempt) inputs attempt st

/-- Loop body of `process_assembly_step_with_retry` (lines 395-426),
with the same fuel discipline as `execRetryGo` except that the
post-loop statement at line 426 processes the assembly once more and
returns (or raises) its result, and that an iteration may increase
`attempt` by one in either the invalid-result branch or the
exception branch. -/
def asmRetryGo (mr : Nat) (source_data : Obj) (key : String) :
    Nat → Obj → Nat → EngineSt → Except String Obj × EngineSt
  | 0, assembly_config, _, st =>
      let p := process_assembly_step assembly_config source_data st.rand
      (p.1, { st with rand := p.2 })
  | fuel + 1, assembly_config, attempt, st =>
      if attempt ≥ mr then
        let p := process_assembly_step assembly_config source_data st.rand
        (p.1, { st with rand := p.2 })
      else
        let p := process_assembly_step assembly_config source_data st.rand
        let st1 : EngineSt := { st with rand := p.2 }
        match p.1 with
        | Except.ok result =>
            if validate_assembly_output result assembly_config then (Except.ok result, st1)
            else
              let attempt1 := attempt + 1
              let st2 : EngineSt := { st1 with ra := setKey st1.ra key attempt1 }
              if attempt1 ≥ mr then (Except.ok result, st2)
              else
                asmRetryGo mr source_data key fuel
                  (create_intelligent_assembly_retry assembly_config source_data attempt1)
                  attempt1 st2
        | Except.error e =>
            let attempt1 := attempt + 1
            let st2 : EngineSt := { st1 with ra := setKey st1.ra key attempt1 }
            if attempt1 ≥ mr then (Except.error e, st2)
            else asmRetryGo mr source_data key fuel assembly_config attempt1 st2

/-- Model of `OrchestraGlueRunner.process_assembly_step_with_retry`
(lines 389-426). -/
def process_assembly_step_with_retry (mr : Nat) (assembly_config : Obj)
    (source_data : Obj) (assembly_name : String) (st : EngineSt) :
    Except String Obj × EngineSt :=
  let key := asmRetryKey assembly_name assembly_config
  let attempt := getAttempts st.ra key
  asmRetryGo mr source_data key (mr - attempt) assembly_config attempt st

/-- Return value of a completed run (lines 383-387). -/
structure RunResult where
  status : String
  results : List (String × Obj)
  execution_memory : List (String × Obj)
deriving DecidableEq

/-- Step loop of `run_workflow` (lines 317-380).  `i` is the 0-based
step position; `results` accumulates the per-step outputs exactly as
`execution_memory` does.  Steps that are not mappings, non-string node
names, and non-mapping assembly configs make the Python source raise
type errors and are flagged as such (outside the modelled fragment; the
workflows exercised here are well-formed). -/
def runStepsGo (env : EngineEnv) (mr : Nat) :
    List J → Nat → List (String × Obj) → EngineSt →
    Except String (List (String × Obj)) × EngineSt
  | [], _, results, st => (Except.ok results, st)
  | step :: rest, i, results, st =>
      match step with
      | J.obj so =>
          if hasKey so "node" then
            match (lookupKey so "node").getD J.null with
            | J.str node_name =>
                let step_inputs := (lookupKey so "inputs").getD (J.obj [])
                let resolved_inputs := substitute_variables step_inputs st.memory
                match execute_node_with_retry env mr node_name resolved_inputs st with
                | (Except.ok node_output, st1) =>
                    let st2 : EngineSt := { st1 with memory := setKey st1.memory node_name node_output }
                    runStepsGo env mr rest (i + 1) (setKey results node_name node_output) st2
                | (Except.error e, st1) => (Except.error e, st1)
            | _ =>
                (Except.error ("step " ++ toString (i + 1) ++
                  ": non-string node name (outside modelled fragment)"), st)
          else if hasKey so "assembly" then
            let assembly_name :=
              match lookupKey so "name" with
              | some (J.str s) => s
              | some v => pyStr v
              | none => "assembly_" ++ toString (i + 1)
            match (lookupKey so "assembly").getD J.null with
            | J.obj assembly_config =>
                let sourceOk : Option Obj :=
                  match lookupKey so "source" with
                  | some (J.str src) =>
                      if src != "" then lookupKey st.memory src else none
                  | _ => none
                match sourceOk with
                | some source_data =>
                    match process_assembly_step_with_retry mr assembly_config source_data
                        assembly_name st with
                    | (Except.ok assembled, st1) =>
                        let st2 : EngineSt :=
                          { st1 with memory := setKey st1.memory assembly_name assembled }
                        runStepsGo env mr rest (i + 1) (setKey results assembly_name assembled) st2
                    | (Except.error e, st1) => (Except.error e, st1)
                | none =>
                    (Except.error ("Assembly step " ++ toString (i + 1) ++
                      " missing valid source step"), st)
            | _ =>
                (Except.error ("step " ++ toString (i + 1) ++
                  ": assembly config is not a mapping (outside modelled fragment)"), st)
          else
            (Except.error ("Step " ++ toString (i + 1) ++
              " must contain either \x27node\x27 or \x27assembly\x27 field"), st)
      | _ =>
          (Except.error ("step " ++ toString (i + 1) ++
            ": step is not a mapping (outside modelled fragment)"), st)

/-- Model of `OrchestraGlueRunner.run_workflow` (lines 307-387): check
the `steps` key (line 309, before anything is mutated), reset
`execution_memory` to empty (line 312) — note `retry_attempts` is NOT
reset — and run the steps in order; on success return the status,
results and execution memory.  The returned `EngineSt` is the state the
runner instance is left in, whether the run succeeded or raised. -/
def run_workflow (env : EngineEnv) (mr : Nat) (workflow : J) (st : EngineSt) :
    Except String RunResult × EngineSt :=
  match workflow with
  | J.obj wo =>
      match lookupKey wo "steps" with
      | some (J.arr steps) =>
          let st0 : EngineSt := { st with memory := [] }
          match runStepsGo env mr steps 0 [] st0 with
          | (Except.ok results, st1) =>
              (Except.ok { status := "success", results := results, execution_memory := st1.memory },
                st1)
          | (Except.error e, st1) => (Except.error e, st1)
      | some _ =>
          (Except.error "workflow steps value is not a sequence (outside modelled fragment)", st)
      | none =>
          (Except.error "Workflow must contain \x27steps\x27 array", st)
  | _ => (Except.error "workflow is not a mapping (outside modelled fragment)", st)

/-!
Claim-level results.  Concrete workflows, node-outcome oracles and
initial states used by the claim theorems follow; `initialState` models
a freshly constructed `OrchestraGlueRunner` (empty execution memory,
empty retry-attempt table, no executions performed yet).
-/

/-- State of a freshly constructed runner instance. -/
def initialState : EngineSt := ⟨[], [], 0, []⟩

/-- Workflow with two node steps; the first step's inputs contain an
unresolvable variable reference. -/
def C1workflow : J :=
  J.obj [("steps", J.arr [
    J.obj [("node", J.str "a"),
           ("inputs", J.obj [("url", J.str "\x7b\x7bmissing_step.field\x7d\x7d")])],
    J.obj [("node", J.str "b"), ("inputs", J.obj [])]])]

/-- Node oracle that echoes the inputs it was given, making visible
exactly what the engine passed downstream. -/
def C1env : EngineEnv := ⟨fun _ _ inputs => Except.ok [("echo", inputs)]⟩

/-- Claim C1: an unresolvable `\x7b\x7bidentifier.path\x7d\x7d` reference in a node
step's inputs is claimed to fail the run at that step, with no later
step executing and the literal token never passed downstream.  The code
does the opposite: `substitute_variables` leaves the literal token in
place and reports nothing, the step executes with the literal token as
input data, the run continues through later steps and completes with
status success. -/
theorem C1_unresolved_reference_is_silently_passed_downstream :
    substitute_variables (J.obj [("url", J.str "\x7b\x7bmissing_step.field\x7d\x7d")]) [] =
      J.obj [("url", J.str "\x7b\x7bmissing_step.field\x7d\x7d")] ∧
    (run_workflow C1env 3 C1workflow initialState).1 =
      Except.ok
        { status := "success",
          results :=
            [("a", [("echo", J.obj [("url", J.str "\x7b\x7bmissing_step.field\x7d\x7d")])]),
             ("b", [("echo", J.obj [])])],
          execution_memory :=
            [("a", [("echo", J.obj [("url", J.str "\x7b\x7bmissing_step.field\x7d\x7d")])]),
             ("b", [("echo", J.obj [])])] } := by
  decide

/-- Output of a `google-news-scraper` invocation that found nothing and
carries no explicit error marker. -/
def C2emptyOutput : Obj := [("articles", J.arr [])]

/-- Node oracle on which every invocation returns the empty collection. -/
def C2env : EngineEnv := ⟨fun _ _ _ => Except.ok C2emptyOutput⟩

/-- Claim C2: an empty `articles` collection is claimed to be marked
invalid with `retry_recommended = true` and re-invoked up to 3 attempts
with a widened time window.  In the code the `google-news-scraper`
branch of `_validate_node_output` marks the output invalid and sets the
widening hint but never sets `retry_recommended`, so
`execute_node_with_retry` returns the empty output after a single
execution and no widened re-invocation ever happens. -/
theorem C2_empty_articles_not_retried :
    validate_node_output "google-news-scraper" C2emptyOutput =
      { is_valid := false, issues := ["No articles found"], retry_recommended := false,
        alternative_strategy := some "try_different_keywords_or_time_period" } ∧
    (execute_node_with_retry C2env 3 "google-news-scraper"
        (J.obj [("keywords", J.str "ai"), ("time_period", J.str "Last 24 hours"),
                ("max_news", J.num 10)]) initialState).1 = Except.ok C2emptyOutput ∧
    (execute_node_with_retry C2env 3 "google-news-scraper"
        (J.obj [("keywords", J.str "ai"), ("time_period", J.str "Last 24 hours"),
                ("max_news", J.num 10)]) initialState).2.execCount = 1 := by
  decide

/-- Stored assembly configuration of a `select_index` step as loaded
from the workflow. -/
def C3config : Obj :=
  [("picked", J.obj [("action", J.str "select_index"), ("from", J.str "items"),
                     ("index", J.num 0)])]

/-- Source data with two items, so the advanced index 1 is in range. -/
def C3source : Obj := [("items", J.arr [J.str "u1", J.str "u2"])]

/-- Claim C3: the retry mutation is claimed to leave the stored step
configuration unchanged.  For the assembly mutation this fails: the
shallow `assembly_config.copy()` shares the nested instruction dicts
with the stored configuration, and `instruction["index"] = new_index`
mutates them in place, so after a retry the stored `select_index`
instruction's `index` field holds the advanced value, not the loaded
one. -/
theorem C3_assembly_retry_mutates_stored_config :
    assembly_config_after_retry_call C3config C3source 1 =
      [("picked", J.obj [("action", J.str "select_index"), ("from", J.str "items"),
                         ("index", J.num 1)])] ∧
    assembly_config_after_retry_call C3config C3source 1 ≠ C3config := by
  decide

/-- Workflow with a single node step whose executions always fail. -/
def C4workflow : J :=
  J.obj [("steps", J.arr [J.obj [("node", J.str "n"), ("inputs", J.obj [])]])]

/-- Node oracle on which every invocation raises. -/
def C4env : EngineEnv := ⟨fun _ _ _ => Except.error "boom"⟩

/-- Claim C4: retry attempt counters are claimed to be fresh for each
`run_workflow` call.  In the code `run_workflow` resets
`execution_memory` but never `retry_attempts`, so a second identical
run on the same instance starts with the exhausted counter: the first
run performs 3 executions and aborts with the subprocess failure, and
the second run performs zero executions (the execution count stays 3)
and aborts immediately with the line-305 exhaustion error. -/
theorem C4_retry_budget_persists_across_runs :
    (run_workflow C4env 3 C4workflow initialState).1 = Except.error "boom" ∧
    (run_workflow C4env 3 C4workflow initialState).2.execCount = 3 ∧
    (run_workflow C4env 3 C4workflow
        (run_workflow C4env 3 C4workflow initialState).2).1 =
      Except.error "Node n failed after 3 attempts" ∧
    (run_workflow C4env 3 C4workflow
        (run_workflow C4env 3 C4workflow initialState).2).2.execCount = 3 := by
  decide

/-- Workflow of the spec's two-step scenario: a `fetch` node step with
inputs `\x7b"count": 5\x7d` followed by an assembly step named `pick`
selecting index 0 of `items` from `fetch`. -/
def C8workflow : J :=
  J.obj [("steps", J.arr [
    J.obj [("node", J.str "fetch"), ("inputs", J.obj [("count", J.num 5)])],
    J.obj [("assembly", J.obj [("picked",
              J.obj [("action", J.str "select_index"), ("from", J.str "items"),
                     ("index", J.num 0)])]),
           ("source", J.str "fetch"), ("name", J.str "pick")]])]

/-- Output the `fetch` node produces in the scenario. -/
def C8fetchOutput : Obj :=
  [("items", J.arr [J.obj [("id", J.str "x")], J.obj [("id", J.str "y")]])]

/-- Node oracle for the scenario: `fetch` returns its two items. -/
def C8env : EngineEnv :=
  ⟨fun _ node_name _ =>
    if node_name == "fetch" then Except.ok C8fetchOutput else Except.error "unknown node"⟩

/-- Claim C8: on the two-step workflow where `fetch` produces
`\x7b"items": [\x7b"id": "x"\x7d, \x7b"id": "y"\x7d]\x7d`, the run completes with
status success and the execution memory maps `pick` to
`\x7b"picked": \x7b"id": "x"\x7d\x7d`. -/
theorem C8_two_step_scenario :
    (run_workflow C8env 3 C8workflow initialState).1 =
      Except.ok
        { status := "success",
          results := [("fetch", C8fetchOutput),
                      ("pick", [("picked", J.obj [("id", J.str "x")])])],
          execution_memory := [("fetch", C8fetchOutput),
                               ("pick", [("picked", J.obj [("id", J.str "x")])])] } := by
  decide

/-!
Helper lemmas about substring containment, used to show error messages
carry the node name.
-/

/-- Helper: a list is a prefix of itself extended on the right. -/
theorem isPrefixOf_self_append (s t : List Char) : s.isPrefixOf (s ++ t) = true := by
  induction s with
  | nil => simp [List.isPrefixOf]
  | cons c cs ih => simp [List.isPrefixOf, ih]

/-- Helper: prefixes survive extending the larger list on the right. -/
theorem isPrefixOf_extend : ∀ (s t u : List Char), s.isPrefixOf t = true → s.isPrefixOf (t ++ u) = true
  | [], _, _, _ => by simp [List.isPrefixOf]
  | _ :: _, [], _, h => by simp [List.isPrefixOf] at h
  | c :: cs, d :: ds, u, h => by
      simp only [List.isPrefixOf, Bool.and_eq_true] at h ⊢
      exact ⟨h.1, isPrefixOf_extend cs ds u h.2⟩

/-- Helper: a string contains its own suffix. -/
theorem strContains_suffix (x s : String) : strContains (x ++ s) s = true := by
  unfold strContains
  rw [List.any_eq_true]
  refine ⟨x.data.length, ?_, ?_⟩
  · rw [List.mem_range, String.data_append, List.length_append]
    omega
  · rw [String.data_append, List.drop_left]
    have h := isPrefixOf_self_append s.data []
    rwa [List.append_nil] at h

/-- Helper: containment survives extending the string on the right. -/
theorem strContains_append_right (x y s : String) (h : strContains x s = true) :
    strContains (x ++ y) s = true := by
  unfold strContains at h ⊢
  rw [List.any_eq_true] at h ⊢
  obtain ⟨i, hi, hp⟩ := h
  rw [List.mem_range] at hi
  refine ⟨i, ?_, ?_⟩
  · rw [List.mem_range, String.data_append, List.length_append]
    omega
  · rw [String.data_append, List.drop_append_of_le_length (by omega)]
    exact isPrefixOf_extend _ _ _ hp

/-- Helper: the doubly node-naming error message produced by the
wrapped `RuntimeError`s of `execute_node` contains the node name. -/
theorem strContains_wrapped_msg (A B C err n : String) :
    strContains (A ++ n ++ B ++ n ++ C ++ err) n = true :=
  strContains_append_right _ _ _ (strContains_append_right _ _ _
    (strContains_append_right _ _ _ (strContains_append_right _ _ _
      (strContains_suffix A n))))

/-- Claim C7: `execute_node` (given the node's `run.py` exists) returns
the JSON value parsed from the complete standard output on a zero exit
status, independently of the diagnostic stream, and fails with an error
message carrying the node name in exactly three cases: non-zero exit
status, standard output that does not parse as JSON, or the 300-second
timeout. -/
theorem C7_execute_node_error_cases (node_name : String) (parse : String → Option J) :
    (∃ e, execute_node node_name true parse ProcOutcome.timeout = Except.error e ∧
       strContains e node_name = true) ∧
    (∀ rc out err, rc ≠ 0 →
       ∃ e, execute_node node_name true parse (ProcOutcome.completed rc out err) =
              Except.error e ∧ strContains e node_name = true) ∧
    (∀ out err, parse out = none →
       ∃ e, execute_node node_name true parse (ProcOutcome.completed 0 out err) =
              Except.error e ∧ strContains e node_name = true) ∧
    (∀ out err j, parse out = some j →
       execute_node node_name true parse (ProcOutcome.completed 0 out err) = Except.ok j) ∧
    (∀ rc out err,
       (∃ e, execute_node node_name true parse (ProcOutcome.completed rc out err) =
               Except.error e) ↔ (rc ≠ 0 ∨ parse out = none)) := by
  refine ⟨?_, ?_, ?_, ?_, ?_⟩
  · refine ⟨"Node " ++ node_name ++ " timed out after 5 minutes", rfl, ?_⟩
    exact strContains_append_right _ _ _ (strContains_suffix "Node " node_name)
  · intro rc out err hrc
    have hb : (rc != 0) = true := by simpa [bne_iff_ne] using hrc
    refine ⟨"Failed to execute node " ++ node_name ++ ": Node " ++ node_name ++
      " failed with error: " ++ err, ?_, strContains_wrapped_msg _ _ _ _ _⟩
    simp [execute_node, hb]
  · intro out err hparse
    refine ⟨"Failed to execute node " ++ node_name ++ ": Node " ++ node_name ++
      " returned invalid JSON: " ++ out, ?_, strContains_wrapped_msg _ _ _ _ _⟩
    simp [execute_node, hparse]
  · intro out err j hparse
    simp [execute_node, hparse]
  · intro rc out err
    constructor
    · rintro ⟨e, he⟩
      by_contra hcon
      push_neg at hcon
      obtain ⟨hrc, hparse⟩ := hcon
      obtain ⟨j, hj⟩ := Option.ne_none_iff_exists'.mp hparse
      simp [execute_node, hrc, hj] at he
    · rintro (hrc | hparse)
      · have hb : (rc != 0) = true := by simpa [bne_iff_ne] using hrc
        refine ⟨"Failed to execute node " ++ node_name ++ ": Node " ++ node_name ++
          " failed with error: " ++ err, ?_⟩
        simp [execute_node, hb]
      · by_cases hrc : rc = 0
        · subst hrc
          refine ⟨"Failed to execute node " ++ node_name ++ ": Node " ++ node_name ++
            " returned invalid JSON: " ++ out, ?_⟩
          simp [execute_node, hparse]
        · have hb : (rc != 0) = true := by simpa [bne_iff_ne] using hrc
          refine ⟨"Failed to execute node " ++ node_name ++ ": Node " ++ node_name ++
            " failed with error: " ++ err, ?_⟩
          simp [execute_node, hb]

/-- Witness for C7: at node name `fetch`, a parser accepting only the
text `ok`, a non-zero exit status, a malformed output, and a clean run,
the theorem's conclusions hold with the hypotheses discharged
concretely. -/
theorem C7_execute_node_error_cases_witness :
    (∃ e, execute_node "fetch" true (fun s => if s == "ok" then some (J.obj []) else none)
            (ProcOutcome.completed 1 "" "boom") = Except.error e ∧
          strContains e "fetch" = true) ∧
    (∃ e, execute_node "fetch" true (fun s => if s == "ok" then some (J.obj []) else none)
            (ProcOutcome.completed 0 "not json" "") = Except.error e ∧
          strContains e "fetch" = true) ∧
    execute_node "fetch" true (fun s => if s == "ok" then some (J.obj []) else none)
        (ProcOutcome.completed 0 "ok" "ignored diagnostics") = Except.ok (J.obj []) :=
  ⟨(C7_execute_node_error_cases "fetch" _).2.1 1 "" "boom" (by decide),
   (C7_execute_node_error_cases "fetch" _).2.2.1 "not json" "" (by decide),
   (C7_execute_node_error_cases "fetch" _).2.2.2.1 "ok" "ignored diagnostics" (J.obj []) (by decide)⟩

/-!
Helper lemmas about `lookupKey` and `setKey`.
-/

/-- Helper: looking up the key just set yields the new value. -/
theorem lookupKey_setKey_self {α : Type} (o : List (String × α)) (k : String) (v : α) :
    lookupKey (setKey o k v) k = some v := by
  induction o with
  | nil => simp [setKey, lookupKey]
  | cons kv rest ih =>
      obtain ⟨k2, w⟩ := kv
      by_cases h : k2 = k
      · subst h
        simp [setKey, lookupKey]
      · simp [setKey, lookupKey, h, ih]

/-- Helper: setting one key leaves lookups of other keys unchanged. -/
theorem lookupKey_setKey_ne {α : Type} (o : List (String × α)) (k k2 : String) (v : α)
    (h : k ≠ k2) : lookupKey (setKey o k v) k2 = lookupKey o k2 := by
  induction o with
  | nil => simp [setKey, lookupKey, h]
  | cons kv rest ih =>
      obtain ⟨k3, w⟩ := kv
      by_cases h3 : k3 = k
      · subst h3
        simp [setKey, lookupKey, h]
      · simp [setKey, lookupKey, h3, ih]

/-- Helper: `applyExtract` only reads the instruction's `extract` field. -/
theorem applyExtract_congr (io1 io2 : Obj) (x : J)
    (h : lookupKey io1 "extract" = lookupKey io2 "extract") :
    applyExtract io1 x = applyExtract io2 x := by
  unfold applyExtract
  rw [h]

/-- Helper: an instruction whose `action` is not `select_random` neither
consumes nor depends on the randomness stream. -/
theorem evalInstruction_no_random (io : Obj) (src : Obj) (rand : List Nat)
    (h : lookupKey io "action" ≠ some (J.str "select_random")) :
    evalInstruction (J.obj io) src rand = ((evalInstruction (J.obj io) src []).1, rand) := by
  have hfalse : (lookupKey io "action" == some (J.str "select_random")) = false := by
    simpa [beq_eq_false_iff_ne] using h
  unfold evalInstruction
  simp only [hfalse, Bool.false_and, Bool.false_eq_true, if_false]
  split
  · split <;> (try split) <;> (try split) <;> (try split) <;> rfl
  · split
    · split <;> rfl
    · rfl

/-- Claim C9: evaluating a `select_index` instruction is deterministic —
its result does not depend on the randomness source and it consumes no
randomness — and evaluating a `select_random` instruction over a
one-element sequence always yields the same result as the corresponding
`select_index` instruction with index 0. -/
theorem C9_select_index_deterministic_and_random_singleton :
    (∀ (io src : Obj) (r1 r2 : List Nat),
       lookupKey io "action" = some (J.str "select_index") →
       (evalInstruction (J.obj io) src r1).1 = (evalInstruction (J.obj io) src r2).1 ∧
       (evalInstruction (J.obj io) src r1).2 = r1) ∧
    (∀ (io src : Obj) (f : String) (x : J) (r1 r2 : List Nat),
       lookupKey io "action" = some (J.str "select_random") →
       lookupKey io "from" = some (J.str f) →
       lookupKey src f = some (J.arr [x]) →
       (evalInstruction (J.obj io) src r1).1 =
         (evalInstruction
           (J.obj (setKey (setKey io "action" (J.str "select_index")) "index" (J.num 0)))
           src r2).1) := by
  constructor
  · intro io src r1 r2 hA
    have h : lookupKey io "action" ≠ some (J.str "select_random") := by
      rw [hA]
      intro hc
      simp at hc
    rw [evalInstruction_no_random io src r1 h, evalInstruction_no_random io src r2 h]
    exact ⟨rfl, rfl⟩
  · intro io src f x r1 r2 hA hF hS
    have hkey : hasKey src f = true := by simp [hasKey, hS]
    set io2 := setKey (setKey io "action" (J.str "select_index")) "index" (J.num 0) with hio2
    have hA2 : lookupKey io2 "action" = some (J.str "select_index") := by
      rw [hio2, lookupKey_setKey_ne _ _ _ _ (by decide), lookupKey_setKey_self]
    have hF2 : lookupKey io2 "from" = some (J.str f) := by
      rw [hio2, lookupKey_setKey_ne _ _ _ _ (by decide),
        lookupKey_setKey_ne _ _ _ _ (by decide), hF]
    have hI2 : lookupKey io2 "index" = some (J.num 0) := by
      rw [hio2, lookupKey_setKey_self]
    have hE2 : lookupKey io2 "extract" = lookupKey io "extract" := by
      rw [hio2, lookupKey_setKey_ne _ _ _ _ (by decide),
        lookupKey_setKey_ne _ _ _ _ (by decide)]
    have hext : applyExtract io2 x = applyExtract io x :=
      applyExtract_congr _ _ _ hE2
    have hIdx2 : idxIntOf io2 = some 0 := by
      unfold idxIntOf
      rw [hI2]
      rfl
    have hfp1 : fromPresentB io src = true := by simp [fromPresentB, hF, hasKey, hS]
    have hfp2 : fromPresentB io2 src = true := by simp [fromPresentB, hF2, hasKey, hS]
    unfold evalInstruction
    simp only [hA, hF, hA2, hF2, hIdx2, hkey, hS, hext, hfp1, hfp2]
    simp [Nat.mod_one, hext]

/-- Witness for C9: a concrete `select_index` instruction evaluated
under two different randomness streams, and a concrete `select_random`
instruction over a one-element sequence compared with the corresponding
`select_index` at index 0. -/
theorem C9_select_index_deterministic_and_random_singleton_witness :
    ((evalInstruction (J.obj [("action", J.str "select_index"), ("from", J.str "items")])
        [("items", J.arr [J.num 7, J.num 8])] [5]).1 =
      (evalInstruction (J.obj [("action", J.str "select_index"), ("from", J.str "items")])
        [("items", J.arr [J.num 7, J.num 8])] []).1 ∧
     (evalInstruction (J.obj [("action", J.str "select_index"), ("from", J.str "items")])
        [("items", J.arr [J.num 7, J.num 8])] [5]).2 = [5]) ∧
    (evalInstruction (J.obj [("action", J.str "select_random"), ("from", J.str "items")])
        [("items", J.arr [J.num 7])] [3]).1 =
      (evalInstruction
        (J.obj (setKey (setKey [("action", J.str "select_random"), ("from", J.str "items")]
          "action" (J.str "select_index")) "index" (J.num 0)))
        [("items", J.arr [J.num 7])] []).1 :=
  ⟨C9_select_index_deterministic_and_random_singleton.1
      [("action", J.str "select_index"), ("from", J.str "items")]
      [("items", J.arr [J.num 7, J.num 8])] [5] [] (by decide),
   C9_select_index_deterministic_and_random_singleton.2
      [("action", J.str "select_random"), ("from", J.str "items")]
      [("items", J.arr [J.num 7])] "items" (J.num 7) [3] [] (by decide) (by decide) (by decide)⟩

/-!
Helper lemmas about the assembly loop, shared by the unknown-action and
failure-shape claims.
-/

/-- Unknown assembly action: the instruction's `action` value equals
none of the three dispatch strings (it may also be missing or
non-string, which Python's `==` likewise rejects). -/
def unknownActionB (io : Obj) : Bool :=
  !(lookupKey io "action" == some (J.str "extract")) &&
  !(lookupKey io "action" == some (J.str "select_index")) &&
  !(lookupKey io "action" == some (J.str "select_random"))

/-- Helper: an instruction with an unknown action evaluates to "omit
the field", raises nothing and consumes no randomness. -/
theorem evalInstruction_unknown_action (io src : Obj) (rand : List Nat)
    (h : unknownActionB io = true) :
    evalInstruction (J.obj io) src rand = (Except.ok none, rand) := by
  unfold unknownActionB at h
  simp only [Bool.and_eq_true, Bool.not_eq_true'] at h
  obtain ⟨⟨h1, h2⟩, h3⟩ := h
  unfold evalInstruction
  simp only [h1, h2, h3, Bool.false_and, Bool.false_eq_true, if_false]

/-- Helper: inserting a pair whose instruction evaluates to "omit, no
randomness" anywhere in the configuration does not change the assembly
loop's behaviour. -/
theorem processAssemblyGo_skip (src : Obj) (k : String) (instr : J)
    (hskip : ∀ r, evalInstruction instr src r = (Except.ok none, r)) :
    ∀ (c1 c2 : List (String × J)) (acc : Obj) (rand : List Nat),
      processAssemblyGo src (c1 ++ (k, instr) :: c2) acc rand =
        processAssemblyGo src (c1 ++ c2) acc rand
  | [], c2, acc, rand => by
      simp only [List.nil_append, processAssemblyGo, hskip rand]
  | (k0, i0) :: t, c2, acc, rand => by
      simp only [List.cons_append, processAssemblyGo]
      cases h0 : evalInstruction i0 src rand with
      | mk r0 rand0 =>
          cases r0 with
          | ok ov =>
              cases ov with
              | none => exact processAssemblyGo_skip src k instr hskip t c2 acc rand0
              | some v => exact processAssemblyGo_skip src k instr hskip t c2 (setKey acc k0 v) rand0
          | error e => rfl

/-- Helper: presence in a dict after an assignment means the key was
assigned or already present. -/
theorem hasKey_setKey_cases {α : Type} (o : List (String × α)) (k key : String) (v : α)
    (h : hasKey (setKey o k v) key = true) : key = k ∨ hasKey o key = true := by
  by_cases hk : k = key
  · exact Or.inl hk.symm
  · right
    unfold hasKey at h ⊢
    rwa [lookupKey_setKey_ne _ _ _ _ hk] at h

/-- Helper: every key of a successful assembly result was either already
accumulated or is one of the configuration's output keys. -/
theorem processAssemblyGo_keys (src : Obj) :
    ∀ (config : List (String × J)) (acc : Obj) (rand : List Nat) (r : Obj) (rand2 : List Nat),
      processAssemblyGo src config acc rand = (Except.ok r, rand2) →
      ∀ key, hasKey r key = true → hasKey acc key = true ∨ key ∈ config.map Prod.fst
  | [], acc, rand, r, rand2, h, key, hk => by
      simp only [processAssemblyGo, Prod.mk.injEq, Except.ok.injEq] at h
      rw [h.1]
      exact Or.inl hk
  | (k0, i0) :: t, acc, rand, r, rand2, h, key, hk => by
      simp only [processAssemblyGo] at h
      cases h0 : evalInstruction i0 src rand with
      | mk r0 rand0 =>
          rw [h0] at h
          cases r0 with
          | ok ov =>
              cases ov with
              | none =>
                  rcases processAssemblyGo_keys src t acc rand0 r rand2 h key hk with hl | hr
                  · exact Or.inl hl
                  · exact Or.inr (by simp [hr])
              | some v =>
                  rcases processAssemblyGo_keys src t (setKey acc k0 v) rand0 r rand2 h key hk with hl | hr
                  · rcases hasKey_setKey_cases acc k0 key v hl with he | hacc
                    · exact Or.inr (by simp [he])
                    · exact Or.inl hacc
                  · exact Or.inr (by simp [hr])
          | error e => simp at h

/-- Claim C10: a dict-valued assembly instruction whose action is none
of `extract`, `select_index`, `select_random` makes the Assembly Engine
silently omit that output field: the instruction evaluates to "omit, no
exception, no randomness", processing the configuration with the pair
present equals processing it with the pair removed, and if the key
appears nowhere else in the configuration it is absent from the
result. -/
theorem C10_unknown_action_is_silent_noop (c1 c2 : List (String × J)) (k : String)
    (io : Obj) (src : Obj) (rand : List Nat) (h : unknownActionB io = true) :
    evalInstruction (J.obj io) src rand = (Except.ok none, rand) ∧
    process_assembly_step (c1 ++ (k, J.obj io) :: c2) src rand =
      process_assembly_step (c1 ++ c2) src rand ∧
    (k ∉ (c1 ++ c2).map Prod.fst →
      ∀ r rand2, process_assembly_step (c1 ++ c2) src rand = (Except.ok r, rand2) →
        hasKey r k = false) := by
  refine ⟨evalInstruction_unknown_action io src rand h, ?_, ?_⟩
  · exact processAssemblyGo_skip src k (J.obj io)
      (fun r => evalInstruction_unknown_action io src r h) c1 c2 [] rand
  · intro hnot r rand2 hok
    by_contra hcon
    rw [Bool.not_eq_false] at hcon
    rcases processAssemblyGo_keys src (c1 ++ c2) [] rand r rand2 hok k hcon with hl | hr
    · simp [hasKey, lookupKey] at hl
    · exact hnot hr

/-- Witness for C10: the unknown action `frobnicate` between two known
instructions is dropped; the surrounding configuration still produces
its fields and the unknown key is absent from the result. -/
theorem C10_unknown_action_is_silent_noop_witness :
    evalInstruction (J.obj [("action", J.str "frobnicate"), ("from", J.str "items")])
        [("items", J.arr [J.num 1])] [] = (Except.ok none, []) ∧
    process_assembly_step
        ([("a", J.str "items")] ++
          ("weird", J.obj [("action", J.str "frobnicate"), ("from", J.str "items")]) ::
          [("b", J.str "items")])
        [("items", J.arr [J.num 1])] [] =
      process_assembly_step ([("a", J.str "items")] ++ [("b", J.str "items")])
        [("items", J.arr [J.num 1])] [] ∧
    ("weird" ∉ ([("a", J.str "items")] ++ [("b", J.str "items")]).map Prod.fst →
      ∀ r rand2,
        process_assembly_step ([("a", J.str "items")] ++ [("b", J.str "items")])
          [("items", J.arr [J.num 1])] [] = (Except.ok r, rand2) →
        hasKey r "weird" = false) :=
  C10_unknown_action_is_silent_noop [("a", J.str "items")] [("b", J.str "items")] "weird"
    [("action", J.str "frobnicate"), ("from", J.str "items")]
    [("items", J.arr [J.num 1])] [] (by decide)

/-!
Claim C6 machinery: failure shapes of an assembly instruction, and
well-typedness of a configuration (integer-viewable `index` fields, so
no `TypeError` can be raised).
-/

/-- Well-typedness of one instruction: its `index` field, when the
instruction is a mapping, has an `int` view (missing, `int` or `bool`).
Only such an index reaches Python's comparison without a `TypeError`. -/
def indexOkB (instr : J) : Bool :=
  match instr with
  | J.obj io => (idxIntOf io).isSome
  | _ => true

/-- Well-typedness of a whole assembly configuration. -/
def wellTypedConfig (config : List (String × J)) : Bool :=
  config.all fun kv => indexOkB kv.2

/-- Failure shapes of the claim: the `from` field is absent from the
source data, the referenced value for `select_index`/`select_random` is
an empty sequence, or the `select_index` index is out of range. -/
def failShapeB (instr : J) (src : Obj) : Bool :=
  match instr with
  | J.obj io =>
      !(fromPresentB io src) ||
      ((lookupKey io "action" == some (J.str "select_index") ||
        lookupKey io "action" == some (J.str "select_random")) &&
        fromValOf io src == some (J.arr [])) ||
      (lookupKey io "action" == some (J.str "select_index") &&
        (match fromValOf io src, idxIntOf io with
         | some (J.arr items), some n => !(decide (0 ≤ n ∧ n < (items.length : Int)))
         | _, _ => false))
  | _ => false

/-- Helper: when the `from` guard fails, every dispatch branch is
skipped and the instruction evaluates to "omit". -/
theorem eval_fromAbsent (io src : Obj) (rand : List Nat)
    (h : fromPresentB io src = false) :
    evalInstruction (J.obj io) src rand = (Except.ok none, rand) := by
  unfold evalInstruction
  simp only [h, Bool.and_false, Bool.false_eq_true, if_false]

/-- Helper: `select_random` over an empty sequence omits the field and
consumes no randomness. -/
theorem eval_sr_empty (io src : Obj) (rand : List Nat) (s : String)
    (hA : lookupKey io "action" = some (J.str "select_random"))
    (hF : lookupKey io "from" = some (J.str s))
    (hS : lookupKey src s = some (J.arr [])) :
    evalInstruction (J.obj io) src rand = (Except.ok none, rand) := by
  have hfp : fromPresentB io src = true := by simp [fromPresentB, hF, hasKey, hS]
  unfold evalInstruction
  simp only [hA, hF, hS, hfp]
  simp

/-- Helper: `select_index` whose integer index fails the range guard
(in particular over an empty sequence) omits the field. -/
theorem eval_si_guard_false (io src : Obj) (rand : List Nat) (s : String) (items : List J)
    (n : Int) (hA : lookupKey io "action" = some (J.str "select_index"))
    (hF : lookupKey io "from" = some (J.str s))
    (hS : lookupKey src s = some (J.arr items))
    (hidx : idxIntOf io = some n)
    (hguard : ¬(0 ≤ n ∧ n < (items.length : Int))) :
    evalInstruction (J.obj io) src rand = (Except.ok none, rand) := by
  have hfp : fromPresentB io src = true := by simp [fromPresentB, hF, hasKey, hS]
  unfold evalInstruction
  simp only [hA, hF, hS, hfp, hidx]
  simp [hguard]

/-- Helper: a well-typed instruction in a failure shape evaluates to
"omit, no exception, no randomness". -/
theorem evalInstruction_failShape (instr : J) (src : Obj) (rand : List Nat)
    (hwt : indexOkB instr = true) (hfail : failShapeB instr src = true) :
    evalInstruction instr src rand = (Except.ok none, rand) := by
  cases instr with
  | obj io =>
      simp only [failShapeB, Bool.or_eq_true] at hfail
      rcases hfail with (h1 | h2) | h3
      · exact eval_fromAbsent io src rand (by rwa [Bool.not_eq_true'] at h1)
      · rw [Bool.and_eq_true, Bool.or_eq_true] at h2
        obtain ⟨hAor, hfv⟩ := h2
        have hfv' : fromValOf io src = some (J.arr []) := eq_of_beq hfv
        rcases hF : lookupKey io "from" with _ | fv
        · rw [fromValOf, hF] at hfv'
          simp at hfv'
        · cases fv with
          | str s =>
              rw [fromValOf, hF] at hfv'
              rcases hAor with hA | hA
              · have hA' := eq_of_beq hA
                simp only [indexOkB] at hwt
                obtain ⟨n, hn⟩ := Option.isSome_iff_exists.mp hwt
                exact eval_si_guard_false io src rand s [] n hA' hF hfv' hn (by
                  intro hcon
                  simp at hcon
                  omega)
              · exact eval_sr_empty io src rand s (eq_of_beq hA) hF hfv'
          | null => rw [fromValOf, hF] at hfv'; simp at hfv'
          | bool b => rw [fromValOf, hF] at hfv'; simp at hfv'
          | num n => rw [fromValOf, hF] at hfv'; simp at hfv'
          | arr l => rw [fromValOf, hF] at hfv'; simp at hfv'
          | obj o => rw [fromValOf, hF] at hfv'; simp at hfv'
      · rw [Bool.and_eq_true] at h3
        obtain ⟨hA, hmatch⟩ := h3
        have hA' := eq_of_beq hA
        rcases hfv : fromValOf io src with _ | fv
        · rw [hfv] at hmatch
          simp at hmatch
        · rcases hfv2 : fv with _ | _ | _ | _ | items | _ <;> rw [hfv, hfv2] at hmatch <;>
            try simp at hmatch
          rcases hidx : idxIntOf io with _ | n <;> rw [hidx] at hmatch <;> try simp at hmatch
          rcases hF : lookupKey io "from" with _ | fv3
          · rw [fromValOf, hF] at hfv
            simp at hfv
          · cases fv3 with
            | str s =>
                rw [fromValOf, hF] at hfv
                subst hfv2
                exact eval_si_guard_false io src rand s items n hA' hF hfv hidx (by
                  intro hcon
                  omega)
            | null => rw [fromValOf, hF] at hfv; simp at hfv
            | bool b => rw [fromValOf, hF] at hfv; simp at hfv
            | num m => rw [fromValOf, hF] at hfv; simp at hfv
            | arr l => rw [fromValOf, hF] at hfv; simp at hfv
            | obj o => rw [fromValOf, hF] at hfv; simp at hfv
  | null => simp [failShapeB] at hfail
  | bool b => simp [failShapeB] at hfail
  | num n => simp [failShapeB] at hfail
  | str s => simp [failShapeB] at hfail
  | arr l => simp [failShapeB] at hfail

/-- Helper: a well-typed instruction never raises. -/
theorem evalInstruction_wt_ok (instr : J) (src : Obj) (rand : List Nat)
    (h : indexOkB instr = true) :
    ∃ ov rand2, evalInstruction instr src rand = (Except.ok ov, rand2) := by
  cases instr with
  | obj io =>
      simp only [indexOkB] at h
      obtain ⟨n, hn⟩ := Option.isSome_iff_exists.mp h
      simp only [evalInstruction, hn]
      split <;> (try split) <;> (try split) <;> (try split) <;> (try split) <;>
        exact ⟨_, _, rfl⟩
  | null => exact ⟨none, rand, rfl⟩
  | bool b => exact ⟨none, rand, rfl⟩
  | num n => exact ⟨none, rand, rfl⟩
  | str s =>
      simp only [evalInstruction]
      split <;> exact ⟨_, _, rfl⟩
  | arr l => exact ⟨none, rand, rfl⟩

/-- Helper: a well-typed configuration never raises. -/
theorem processAssemblyGo_wt_ok (src : Obj) :
    ∀ (config : List (String × J)) (acc : Obj) (rand : List Nat),
      wellTypedConfig config = true →
      ∃ r rand2, processAssemblyGo src config acc rand = (Except.ok r, rand2)
  | [], acc, rand, _ => ⟨acc, rand, rfl⟩
  | (k0, i0) :: t, acc, rand, hwt => by
      rw [wellTypedConfig, List.all_cons, Bool.and_eq_true] at hwt
      obtain ⟨h0, ht⟩ := hwt
      obtain ⟨ov, rand0, he⟩ := evalInstruction_wt_ok i0 src rand h0
      cases ov with
      | none =>
          obtain ⟨r, rand2, hr⟩ := processAssemblyGo_wt_ok src t acc rand0 ht
          exact ⟨r, rand2, by simp only [processAssemblyGo, he, hr]⟩
      | some v =>
          obtain ⟨r, rand2, hr⟩ := processAssemblyGo_wt_ok src t (setKey acc k0 v) rand0 ht
          exact ⟨r, rand2, by simp only [processAssemblyGo, he, hr]⟩

/-- Claim C6: for a well-typed assembly configuration, a pair whose
instruction is in a failure shape (its `from` key absent from the
source data, an empty sequence for `select_index`/`select_random`, or
an out-of-range `select_index` index) is omitted from the result with
no exception: processing the configuration with the pair present equals
processing it with the pair removed, the whole call returns normally,
and if the key appears nowhere else it is absent from the result, while
all remaining pairs are still processed. -/
theorem C6_assembly_failures_omit_field_without_raising
    (c1 c2 : List (String × J)) (k : String) (instr : J) (src : Obj) (rand : List Nat)
    (hwt : wellTypedConfig (c1 ++ (k, instr) :: c2) = true)
    (hfail : failShapeB instr src = true) :
    process_assembly_step (c1 ++ (k, instr) :: c2) src rand =
      process_assembly_step (c1 ++ c2) src rand ∧
    (∃ r rand2, process_assembly_step (c1 ++ (k, instr) :: c2) src rand =
      (Except.ok r, rand2)) ∧
    (k ∉ (c1 ++ c2).map Prod.fst →
      ∀ r rand2, process_assembly_step (c1 ++ c2) src rand = (Except.ok r, rand2) →
        hasKey r k = false) := by
  have hwt2 : wellTypedConfig (c1 ++ c2) = true := by
    rw [wellTypedConfig, List.all_append] at hwt ⊢
    rw [List.all_cons] at hwt
    rw [Bool.and_eq_true] at hwt ⊢
    rw [Bool.and_eq_true] at hwt
    exact ⟨hwt.1, hwt.2.2⟩
  have hwti : indexOkB instr = true := by
    rw [wellTypedConfig, List.all_append, List.all_cons] at hwt
    simp only [Bool.and_eq_true] at hwt
    exact hwt.2.1
  have hskip : ∀ r, evalInstruction instr src r = (Except.ok none, r) :=
    fun r => evalInstruction_failShape instr src r hwti hfail
  have heq : process_assembly_step (c1 ++ (k, instr) :: c2) src rand =
      process_assembly_step (c1 ++ c2) src rand :=
    processAssemblyGo_skip src k instr hskip c1 c2 [] rand
  refine ⟨heq, ?_, ?_⟩
  · rw [heq]
    exact processAssemblyGo_wt_ok src (c1 ++ c2) [] rand hwt2
  · intro hnot r rand2 hok
    by_contra hcon
    rw [Bool.not_eq_false] at hcon
    rcases processAssemblyGo_keys src (c1 ++ c2) [] rand r rand2 hok k hcon with hl | hr
    · simp [hasKey, lookupKey] at hl
    · exact hnot hr

/-- Witness for C6: a `select_index` over a missing `from` key between
two instructions that succeed; the failing field is omitted, nothing is
raised, and the neighbours are still produced. -/
theorem C6_assembly_failures_omit_field_without_raising_witness :
    process_assembly_step
        ([("a", J.str "items")] ++
          ("gone", J.obj [("action", J.str "select_index"), ("from", J.str "nope"),
                          ("index", J.num 0)]) :: [("b", J.str "items")])
        [("items", J.arr [J.num 1])] [] =
      process_assembly_step ([("a", J.str "items")] ++ [("b", J.str "items")])
        [("items", J.arr [J.num 1])] [] ∧
    (∃ r rand2, process_assembly_step
        ([("a", J.str "items")] ++
          ("gone", J.obj [("action", J.str "select_index"), ("from", J.str "nope"),
                          ("index", J.num 0)]) :: [("b", J.str "items")])
        [("items", J.arr [J.num 1])] [] = (Except.ok r, rand2)) ∧
    ("gone" ∉ ([("a", J.str "items")] ++ [("b", J.str "items")]).map Prod.fst →
      ∀ r rand2, process_assembly_step ([("a", J.str "items")] ++ [("b", J.str "items")])
          [("items", J.arr [J.num 1])] [] = (Except.ok r, rand2) →
        hasKey r "gone" = false) :=
  C6_assembly_failures_omit_field_without_raising
    [("a", J.str "items")] [("b", J.str "items")] "gone"
    (J.obj [("action", J.str "select_index"), ("from", J.str "nope"), ("index", J.num 0)])
    [("items", J.arr [J.num 1])] [] (by decide) (by decide)

/-!
Claim C5 machinery: bounds and outcomes of the retry loops.
-/

/-- Helper: the retry loop performs at most `fuel` node executions, and
never un-performs one. -/
theorem execRetryGo_execCount_bounds (env : EngineEnv) (mr : Nat) (node key : String) :
    ∀ (fuel : Nat) (inputs : J) (attempt : Nat) (st : EngineSt),
      st.execCount ≤ (execRetryGo env mr node key fuel inputs attempt st).2.execCount ∧
      (execRetryGo env mr node key fuel inputs attempt st).2.execCount ≤ st.execCount + fuel := by
  intro fuel
  induction fuel with
  | zero => intro inputs attempt st; simp [execRetryGo]
  | succ fuel ih =>
      intro inputs attempt st
      rw [execRetryGo]
      by_cases hge : attempt ≥ mr
      · simp only [if_pos hge]
        omega
      · simp only [if_neg hge]
        cases horacle : env.oracle st.execCount node inputs with
        | error e =>
            simp only []
            by_cases h1 : attempt + 1 ≥ mr
            · simp only [if_pos h1]
              omega
            · simp only [if_neg h1]
              have h2 := ih inputs (attempt + 1)
                ⟨st.memory, setKey st.ra key (attempt + 1), st.execCount + 1, st.rand⟩
              simp only at h2
              constructor
              · omega
              · omega
        | ok output =>
            simp only []
            by_cases hv : (validate_node_output node output).is_valid = true
            · simp only [if_pos hv]
              omega
            · simp only [if_neg hv]
              by_cases hr : (!(validate_node_output node output).retry_recommended ||
                  decide (attempt ≥ mr - 1)) = true
              · simp only [if_pos hr]
                omega
              · simp only [if_neg hr]
                have h2 := ih (create_retry_strategy node inputs (validate_node_output node output)
                    (attempt + 1)) (attempt + 1)
                  ⟨st.memory, setKey st.ra key (attempt + 1), st.execCount + 1, st.rand⟩
                simp only at h2
                omega

/-- Helper: when every execution produces a parsed output, the retry
loop (entered with attempts left) returns the output of its last
execution — degraded output is returned, never an exception. -/
theorem execRetryGo_all_parsed (env : EngineEnv) (mr : Nat) (node key : String)
    (hor : ∀ c ins, ∃ o, env.oracle c node ins = Except.ok o) :
    ∀ (fuel : Nat) (inputs : J) (attempt : Nat) (st : EngineSt),
      attempt + fuel = mr → 0 < fuel →
      ∃ out, (execRetryGo env mr node key fuel inputs attempt st).1 = Except.ok out ∧
        ∃ ins, env.oracle ((execRetryGo env mr node key fuel inputs attempt st).2.execCount - 1)
          node ins = Except.ok out := by
  intro fuel
  induction fuel with
  | zero => intro inputs attempt st hinv hpos; omega
  | succ fuel ih =>
      intro inputs attempt st hinv _
      have hge : ¬ attempt ≥ mr := by omega
      rw [execRetryGo]
      simp only [if_neg hge]
      obtain ⟨o, ho⟩ := hor st.execCount inputs
      rw [ho]
      simp only []
      by_cases hv : (validate_node_output node o).is_valid = true
      · simp only [if_pos hv]
        exact ⟨o, rfl, inputs, by simpa using ho⟩
      · simp only [if_neg hv]
        by_cases hr : (!(validate_node_output node o).retry_recommended ||
            decide (attempt ≥ mr - 1)) = true
        · simp only [if_pos hr]
          exact ⟨o, rfl, inputs, by simpa using ho⟩
        · simp only [if_neg hr]
          have hfuel : 0 < fuel := by
            rw [Bool.or_eq_true, not_or] at hr
            have := hr.2
            simp only [decide_eq_true_eq] at this
            omega
          exact ih (create_retry_strategy node inputs (validate_node_output node o) (attempt + 1))
            (attempt + 1)
            ⟨st.memory, setKey st.ra key (attempt + 1), st.execCount + 1, st.rand⟩
            (by omega) hfuel

/-- Helper: when the retry loop (entered with attempts left) aborts,
the abort is the exception of its final execution, performed after the
remaining attempt budget was fully consumed. -/
theorem execRetryGo_error_hard (env : EngineEnv) (mr : Nat) (node key : String) :
    ∀ (fuel : Nat) (inputs : J) (attempt : Nat) (st : EngineSt) (e : String),
      attempt + fuel = mr → 0 < fuel →
      (execRetryGo env mr node key fuel inputs attempt st).1 = Except.error e →
      (execRetryGo env mr node key fuel inputs attempt st).2.execCount = st.execCount + fuel ∧
      ∃ ins, env.oracle (st.execCount + fuel - 1) node ins = Except.error e := by
  intro fuel
  induction fuel with
  | zero => intro inputs attempt st e hinv hpos; omega
  | succ fuel ih =>
      intro inputs attempt st e hinv _
      have hge : ¬ attempt ≥ mr := by omega
      rw [execRetryGo]
      simp only [if_neg hge]
      cases horacle : env.oracle st.execCount node inputs with
      | error e0 =>
          simp only []
          by_cases h1 : attempt + 1 ≥ mr
          · simp only [if_pos h1]
            intro he
            have hfuel : fuel = 0 := by omega
            subst hfuel
            cases he
            exact ⟨rfl, inputs, by simpa using horacle⟩
          · simp only [if_neg h1]
            intro he
            have h2 := ih inputs (attempt + 1)
              ⟨st.memory, setKey st.ra key (attempt + 1), st.execCount + 1, st.rand⟩ e
              (by omega) (by omega) he
            simp only at h2
            constructor
            · omega
            · obtain ⟨ins, hi⟩ := h2.2
              exact ⟨ins, by
                have : st.execCount + 1 + fuel - 1 = st.execCount + (fuel + 1) - 1 := by omega
                rwa [this] at hi⟩
      | ok output =>
          simp only []
          by_cases hv : (validate_node_output node output).is_valid = true
          · simp only [if_pos hv]
            intro he
            cases he
          · simp only [if_neg hv]
            by_cases hr : (!(validate_node_output node output).retry_recommended ||
                decide (attempt ≥ mr - 1)) = true
            · simp only [if_pos hr]
              intro he
              cases he
            · simp only [if_neg hr]
              intro he
              have hfuel : 0 < fuel := by
                rw [Bool.or_eq_true, not_or] at hr
                have := hr.2
                simp only [decide_eq_true_eq] at this
                omega
              have h2 := ih (create_retry_strategy node inputs
                  (validate_node_output node output) (attempt + 1)) (attempt + 1)
                ⟨st.memory, setKey st.ra key (attempt + 1), st.execCount + 1, st.rand⟩ e
                (by omega) hfuel he
              simp only at h2
              constructor
              · omega
              · obtain ⟨ins, hi⟩ := h2.2
                exact ⟨ins, by
                  have : st.execCount + 1 + fuel - 1 = st.execCount + (fuel + 1) - 1 := by omega
                  rwa [this] at hi⟩

/-- Helper: when every processing of the source succeeds, the assembly
retry loop returns a result rather than an exception, from any entry
state (including an already-exhausted attempt count, where line 426
processes once more). -/
theorem asmRetryGo_no_raise (mr : Nat) (source_data : Obj) (key : String)
    (hpr : ∀ cfg rand, ∃ r, (process_assembly_step cfg source_data rand).1 = Except.ok r) :
    ∀ (fuel : Nat) (config : Obj) (attempt : Nat) (st : EngineSt),
      ∃ r, (asmRetryGo mr source_data key fuel config attempt st).1 = Except.ok r := by
  intro fuel
  induction fuel with
  | zero =>
      intro config attempt st
      obtain ⟨r, hr⟩ := hpr config st.rand
      rw [asmRetryGo]
      exact ⟨r, hr⟩
  | succ fuel ih =>
      intro config attempt st
      rw [asmRetryGo]
      by_cases hge : attempt ≥ mr
      · simp only [if_pos hge]
        obtain ⟨r, hr⟩ := hpr config st.rand
        exact ⟨r, hr⟩
      · simp only [if_neg hge]
        obtain ⟨r, hr⟩ := hpr config st.rand
        cases hp : (process_assembly_step config source_data st.rand).1 with
        | error e => rw [hp] at hr; cases hr
        | ok result =>
            simp only []
            by_cases hval : validate_assembly_output result config = true
            · simp only [if_pos hval]
              exact ⟨result, rfl⟩
            · simp only [if_neg hval]
              by_cases h1 : attempt + 1 ≥ mr
              · simp only [if_pos h1]
                exact ⟨result, rfl⟩
              · simp only [if_neg h1]
                exact ih (create_intelligent_assembly_retry config source_data (attempt + 1))
                  (attempt + 1) _

/-- Helper: the `from` guard never holds against empty source data. -/
theorem fromPresentB_nil (io : Obj) : fromPresentB io [] = false := by
  unfold fromPresentB
  split <;> rfl

/-- Helper: against empty source data every instruction omits its field
and nothing is ever raised. -/
theorem evalInstruction_nil_src (instr : J) (rand : List Nat) :
    evalInstruction instr [] rand = (Except.ok none, rand) := by
  cases instr with
  | obj io => exact eval_fromAbsent io [] rand (fromPresentB_nil io)
  | str s => simp [evalInstruction, hasKey, lookupKey]
  | null => rfl
  | bool b => rfl
  | num n => rfl
  | arr l => rfl

/-- Helper: processing any configuration against empty source data
yields the accumulated result unchanged. -/
theorem processAssemblyGo_nil_src :
    ∀ (config : List (String × J)) (acc : Obj) (rand : List Nat),
      processAssemblyGo [] config acc rand = (Except.ok acc, rand)
  | [], acc, rand => rfl
  | (k0, i0) :: t, acc, rand => by
      rw [processAssemblyGo, evalInstruction_nil_src i0 rand]
      exact processAssemblyGo_nil_src t acc rand

/-- Claim C5: with a fresh attempt counter for this step configuration,
the engine performs at most `max_retries = 3` executions; when every
execution yields parsed output, the loop returns its last execution's
output even when validation judged it invalid, instead of raising; an
abort is exactly a hard execution failure on the final execution after
the 3-attempt budget is consumed; and the assembly retry loop likewise
returns a result rather than an exception whenever processing itself
never raises. -/
theorem C5_retry_bounded_and_returns_last_output (env : EngineEnv) (node_name : String)
    (inputs : J) (st : EngineSt)
    (h0 : getAttempts st.ra (nodeRetryKey node_name inputs) = 0) :
    (execute_node_with_retry env 3 node_name inputs st).2.execCount ≤ st.execCount + 3 ∧
    ((∀ c ins, ∃ o, env.oracle c node_name ins = Except.ok o) →
      ∃ out, (execute_node_with_retry env 3 node_name inputs st).1 = Except.ok out ∧
        ∃ ins, env.oracle
          ((execute_node_with_retry env 3 node_name inputs st).2.execCount - 1) node_name ins =
          Except.ok out) ∧
    (∀ e, (execute_node_with_retry env 3 node_name inputs st).1 = Except.error e →
      (execute_node_with_retry env 3 node_name inputs st).2.execCount = st.execCount + 3 ∧
      ∃ ins, env.oracle (st.execCount + 2) node_name ins = Except.error e) ∧
    (∀ (mr : Nat) (config source_data : Obj) (assembly_name : String) (st2 : EngineSt),
      (∀ cfg rand, ∃ r, (process_assembly_step cfg source_data rand).1 = Except.ok r) →
      ∃ r, (process_assembly_step_with_retry mr config source_data assembly_name st2).1 =
        Except.ok r) := by
  have hkey : getAttempts st.ra (nodeRetryKey node_name inputs) = 0 := h0
  refine ⟨?_, ?_, ?_, ?_⟩
  · have h := execRetryGo_execCount_bounds env 3 node_name (nodeRetryKey node_name inputs)
      3 inputs 0 st
    rw [execute_node_with_retry, hkey]
    exact h.2
  · intro hor
    rw [execute_node_with_retry, hkey]
    exact execRetryGo_all_parsed env 3 node_name (nodeRetryKey node_name inputs) hor
      3 inputs 0 st rfl (by omega)
  · intro e
    rw [execute_node_with_retry, hkey]
    intro he
    have h := execRetryGo_error_hard env 3 node_name (nodeRetryKey node_name inputs)
      3 inputs 0 st e rfl (by omega) he
    exact ⟨h.1, h.2⟩
  · intro mr config source_data assembly_name st2 hpr
    rw [process_assembly_step_with_retry]
    exact asmRetryGo_no_raise mr source_data (asmRetryKey assembly_name config) hpr
      (mr - getAttempts st2.ra (asmRetryKey assembly_name config)) config
      (getAttempts st2.ra (asmRetryKey assembly_name config)) st2

/-- Oracle whose node always returns a too-short summary: the output
parses but is judged invalid with a retry recommendation. -/
def C5env : EngineEnv := ⟨fun _ _ _ => Except.ok [("summary", J.str "short")]⟩

/-- Witness for C5: on a fresh runner state, the `article-processor`
oracle that always returns an invalid-but-parsed summary exhausts the 3
attempts and the last output is returned; and the assembly retry loop
over empty source data (whose processing can never raise) returns a
result. -/
theorem C5_retry_bounded_and_returns_last_output_witness :
    getAttempts initialState.ra (nodeRetryKey "article-processor" (J.obj [])) = 0 ∧
    (∃ out, (execute_node_with_retry C5env 3 "article-processor" (J.obj []) initialState).1 =
        Except.ok out ∧
      ∃ ins, C5env.oracle
        ((execute_node_with_retry C5env 3 "article-processor" (J.obj [])
          initialState).2.execCount - 1) "article-processor" ins = Except.ok out) ∧
    (∃ r, (process_assembly_step_with_retry 3 [("f", J.str "items")] [] "nm" initialState).1 =
      Except.ok r) :=
  ⟨by decide,
   (C5_retry_bounded_and_returns_last_output C5env "article-processor" (J.obj []) initialState
      (by decide)).2.1
      (fun _ _ => ⟨[("summary", J.str "short")], rfl⟩),
   (C5_retry_bounded_and_returns_last_output C5env "article-processor" (J.obj []) initialState
      (by decide)).2.2.2 3 [("f", J.str "items")] [] "nm" initialState
      (fun cfg rand => ⟨[], by
        rw [process_assembly_step, processAssemblyGo_nil_src]⟩)⟩

end Orchestra
